import Mathlib

/-!
Shallow embedding of the eth-scan ingestion pipeline (src/src/eth/eth.service.ts
and the TypeORM entities) for verification of the specification's claims.

Modelling conventions:
* All decimal-string amounts (BigNumber.js values in the source) are integers
  in wei, so they are embedded as `Int` (balances may go negative) or `Nat`
  where the source value is a chain-provided unsigned quantity.  All BigNumber
  arithmetic in the source (`plus`, `minus`, `mul`, `shiftedBy`) is exact
  arbitrary-precision integer arithmetic on these values.
* The durable stores (TypeORM repositories) are embedded as lists inside one
  `DB` state record; `findOne` is `List.find?`, `insert` appends, `update`
  maps over the list replacing the matching row.
* `transaction.wait()` either resolves with a receipt, rejects with an error
  whose message contains "transaction failed" and carries a receipt, or
  rejects with any other error (which `processTx` rethrows).  This is the
  `WaitOutcome` tag on the embedded transaction.
* The TS field names `from`/`to` are Lean keywords/near-keywords, embedded as
  `fromAddr`/`toAddr`.
-/

/-- ASCII lower-casing of one character, as JavaScript `toLowerCase` acts on
the hex addresses and hashes this service normalizes. -/
def lowerChar (c : Char) : Char :=
  if 'A' ≤ c ∧ c ≤ 'Z' then Char.ofNat (c.toNat + 32) else c

/-- Embedding of `String.prototype.toLowerCase()` on the ASCII strings
(addresses, transaction hashes) the service lower-cases. -/
def strToLower (s : String) : String :=
  ⟨s.data.map lowerChar⟩

/-- Receipt data used by `calcFeesAmount`: `gasUsed` and `effectiveGasPrice`. -/
structure TxReceipt where
  gasUsed : Nat
  effectiveGasPrice : Nat
deriving DecidableEq, Repr

/-- Result of `transaction.wait()` as observed by `processTx`:
resolves with a receipt; rejects with a "transaction failed" error carrying
the failure receipt; or rejects with any other (transport) error. -/
inductive WaitOutcome where
  | resolved (receipt : TxReceipt)
  | rejectedTxFailed (receipt : TxReceipt)
  | rejectedOther
deriving DecidableEq, Repr

/-- Embedding of the `TransactionResponse` fields read by the service, plus
the outcome of its `wait()` call. -/
structure TransactionResponse where
  hash : String
  blockNumber : Nat
  fromAddr : Option String
  toAddr : Option String
  value : Nat
  wait : WaitOutcome
deriving DecidableEq, Repr

/-- Embedding of `BlockWithTransactions` fields read by the service. -/
structure BlockWithTransactions where
  number : Nat
  miner : String
  gasUsed : Nat
  baseFeePerGas : Option Nat
  transactions : List TransactionResponse
deriving DecidableEq, Repr

/-- Embedding of `AccountEntity` (src/unnamed/part_000). -/
structure AccountEntity where
  address : String
  balance : Int
  totalTxCount : Nat
  incomingTxCount : Nat
  outgoingTxCount : Nat
  totalFeesPaid : Int
  totalReceived : Int
  totalSent : Int
  totalMinedAmount : Int
  totalMinedBlocks : Nat
deriving DecidableEq, Repr

/-- Embedding of `TransactionEntity` (src/unnamed/part_001).  Nullable
columns are `Option`. -/
structure TransactionEntity where
  txHash : String
  blockNumber : Nat
  fromAddr : Option String
  toAddr : Option String
  success : Bool
  amount : Int
  feesAmount : Int
  totalAmount : Int
  fromPreviousBalance : Option Int
  toPreviousBalance : Option Int
  fromNextBalance : Option Int
  toNextBalance : Option Int
deriving DecidableEq, Repr

/-- Embedding of `BlockRewardEntity` (src/unnamed/part_000). -/
structure BlockRewardEntity where
  blockNumber : Nat
  account : String
  amount : Int
deriving DecidableEq, Repr

/-- The durable state: the four repositories.  `lastProcessed` is the
`LastProcessedBlockEntity` row for the single blockchain 'ETH' (`none` when
the row has not been inserted yet); TypeORM `update` does not insert, which
the embedding of `setLastProcessedBlockNumber` preserves. -/
structure DB where
  accounts : List AccountEntity
  transactions : List TransactionEntity
  blockRewards : List BlockRewardEntity
  lastProcessed : Option Nat
deriving DecidableEq, Repr

/-- Error carried out of `processTx` when `transaction.wait()` rejects with
an error whose message does not contain "transaction failed" (rethrown). -/
inductive ProcError where
  | transport
deriving DecidableEq, Repr

/-- `calcFeesAmount`: `gasUsed * effectiveGasPrice`. -/
def calcFeesAmount (txReceipt : TxReceipt) : Int :=
  (txReceipt.gasUsed * txReceipt.effectiveGasPrice : Nat)

/-- `checkTxExists`: whether a journal row with this `txHash` exists. -/
def checkTxExists (db : DB) (txHash : String) : Bool :=
  (db.transactions.find? (fun t => t.txHash == txHash)).isSome

/-- `accountRepository.findOne({where: {address}})`. -/
def findAccount (db : DB) (address : String) : Option AccountEntity :=
  db.accounts.find? (fun a => a.address == address)

/-- `getOrCreateAccount`: look the address up; on miss insert a zeroed
record and return it.  Returns the account together with the new state. -/
def getOrCreateAccount (db : DB) (address : String) : AccountEntity × DB :=
  match findAccount db address with
  | some account => (account, db)
  | none =>
      let accountData : AccountEntity :=
        { address := address
          balance := 0
          totalTxCount := 0
          incomingTxCount := 0
          outgoingTxCount := 0
          totalFeesPaid := 0
          totalReceived := 0
          totalSent := 0
          totalMinedAmount := 0
          totalMinedBlocks := 0 }
      (accountData, { db with accounts := db.accounts ++ [accountData] })

/-- `updateAccountStats`: `repository.update({address}, {...account})` —
replace every row whose address matches with the supplied full record
(no insert on miss). -/
def updateAccountStats (db : DB) (account : AccountEntity) : DB :=
  { db with
      accounts :=
        db.accounts.map (fun a => if a.address == account.address then account else a) }

/-- `saveTx`: insert the journal row. -/
def saveTx (db : DB) (tx : TransactionEntity) : DB :=
  { db with transactions := db.transactions ++ [tx] }

/-- The receiver-side account record written by `processTx` (lines 212-227):
incoming count and received total grow, balance becomes `toNextBalance`. -/
def receiverRecord (rcv : AccountEntity) (amount : Int) (toNext : Option Int) : AccountEntity :=
  { address := rcv.address
    balance := toNext.getD 0
    totalTxCount := rcv.totalTxCount + 1
    incomingTxCount := rcv.incomingTxCount + 1
    outgoingTxCount := rcv.outgoingTxCount
    totalFeesPaid := rcv.totalFeesPaid
    totalReceived := rcv.totalReceived + amount
    totalSent := rcv.totalSent
    totalMinedAmount := rcv.totalMinedAmount
    totalMinedBlocks := rcv.totalMinedBlocks }

/-- The sender-side account record written by `processTx` (lines 228-245):
outgoing count, sent total and fees paid grow, balance becomes
`fromNextBalance`. -/
def senderRecord (fr : AccountEntity) (amount feesAmount : Int) (fromNext : Option Int) :
    AccountEntity :=
  { address := fr.address
    balance := fromNext.getD 0
    totalTxCount := fr.totalTxCount + 1
    incomingTxCount := fr.incomingTxCount
    outgoingTxCount := fr.outgoingTxCount + 1
    totalFeesPaid := fr.totalFeesPaid + feesAmount
    totalReceived := fr.totalReceived
    totalSent := fr.totalSent + amount
    totalMinedAmount := fr.totalMinedAmount
    totalMinedBlocks := fr.totalMinedBlocks }

/-- The part of `processTx` after the receipt is known (lines 198-247): the
journal row is built from the pre-transaction account snapshots `accFrom`
and `accTo`, persisted first, then the receiver-side account update is
written, then the sender-side one. -/
def applyReceipt (db2 : DB) (transaction : TransactionResponse)
    (accFrom accTo : Option AccountEntity) (success : Bool) (receipt : TxReceipt) :
    DB × TransactionEntity :=
  let amount : Int := transaction.value
  let feesAmount := calcFeesAmount receipt
  let fromPrev := accFrom.map (·.balance)
  let toPrev := accTo.map (·.balance)
  let fromNext := fromPrev.map (fun b => b - amount - feesAmount)
  let toNext := toPrev.map (fun b => b + amount)
  let txBase : TransactionEntity :=
    { txHash := strToLower transaction.hash
      blockNumber := transaction.blockNumber
      fromAddr := transaction.fromAddr.map strToLower
      toAddr := transaction.toAddr.map strToLower
      success := success
      amount := amount
      feesAmount := feesAmount
      totalAmount := feesAmount + amount
      fromPreviousBalance := fromPrev
      toPreviousBalance := toPrev
      fromNextBalance := fromNext
      toNextBalance := toNext }
  let db3 := saveTx db2 txBase
  let db4 :=
    match accTo with
    | some rcv => updateAccountStats db3 (receiverRecord rcv amount toNext)
    | none => db3
  let db5 :=
    match accFrom with
    | some fr => updateAccountStats db4 (senderRecord fr amount feesAmount fromNext)
    | none => db4
  (db5, txBase)

/-- The account-resolution prefix of `processTx` (lines 168-176): the sender
account is resolved first (get-or-create, possibly inserting it), then the
receiver account, both against lower-cased addresses.  Returns the two
pre-transaction account snapshots and the new state. -/
def resolveAccounts (db : DB) (transaction : TransactionResponse) :
    Option AccountEntity × Option AccountEntity × DB :=
  let p1 : Option AccountEntity × DB :=
    match transaction.fromAddr.map strToLower with
    | some f => (some (getOrCreateAccount db f).1, (getOrCreateAccount db f).2)
    | none => (none, db)
  match transaction.toAddr.map strToLower with
  | some g => (p1.1, some (getOrCreateAccount p1.2 g).1, (getOrCreateAccount p1.2 g).2)
  | none => (p1.1, none, p1.2)

/-- `processTx` (src/src/eth/eth.service.ts lines 153-248).  Returns the new
state together with `.ok none` for a duplicate (TS returns `undefined`),
`.ok (some entity)` for a processed transaction, and `.error .transport`
when `wait()` rejected with a non-"transaction failed" error (accounts
created before the `wait()` call persist in that case).  The sender account
is resolved before the receiver account, both before `wait()`. -/
def processTx (db : DB) (transaction : TransactionResponse) :
    DB × Except ProcError (Option TransactionEntity) :=
  if checkTxExists db (strToLower transaction.hash) then (db, .ok none)
  else
    let r := resolveAccounts db transaction
    match transaction.wait with
    | .rejectedOther => (r.2.2, .error .transport)
    | .resolved receipt =>
        ((applyReceipt r.2.2 transaction r.1 r.2.1 true receipt).1,
          .ok (some (applyReceipt r.2.2 transaction r.1 r.2.1 true receipt).2))
    | .rejectedTxFailed receipt =>
        ((applyReceipt r.2.2 transaction r.1 r.2.1 false receipt).1,
          .ok (some (applyReceipt r.2.2 transaction r.1 r.2.1 false receipt).2))

/-- `calcBlockReward` (lines 272-293): three-tier base reward shifted by 18
decimals, minus `gasUsed * baseFeePerGas` when a base fee is present,
plus the collected fees. -/
def calcBlockReward (block : BlockWithTransactions) (feesAmount : Int) : Int :=
  let baseBlockReward : Int :=
    if block.number ≤ 4369999 then 5
    else if block.number ≥ 4370000 ∧ block.number ≤ 7279999 then 3
    else 2
  let shifted := baseBlockReward * (10 : Int) ^ 18
  let burnt : Int :=
    match block.baseFeePerGas with
    | some baseFee => (block.gasUsed * baseFee : Nat)
    | none => 0
  shifted + feesAmount - burnt

/-- `processBlockReward` (lines 129-151): insert the BlockReward row, then
get-or-create the miner and add the reward to its mined totals and balance. -/
def processBlockReward (db : DB) (block : BlockWithTransactions) (feesSum : Int) : DB :=
  let blockRewardAmount := calcBlockReward block feesSum
  let miner := strToLower block.miner
  let db1 :=
    { db with
        blockRewards :=
          db.blockRewards ++
            [{ blockNumber := block.number, account := miner, amount := blockRewardAmount }] }
  let account := (getOrCreateAccount db1 miner).1
  let db2 := (getOrCreateAccount db1 miner).2
  updateAccountStats db2
    { account with
        totalMinedAmount := account.totalMinedAmount + blockRewardAmount
        totalMinedBlocks := account.totalMinedBlocks + 1
        balance := account.balance + blockRewardAmount }

/-- The transaction loop of `processBlock` (lines 110-125): process each
transaction in order, accumulating `feesSum` over the non-duplicate ones;
a `processTx` error stops the loop and propagates. -/
def processTxList (db : DB) (feesSum : Int) :
    List TransactionResponse → DB × Except ProcError Int
  | [] => (db, .ok feesSum)
  | t :: ts =>
      match processTx db t with
      | (db1, .ok none) => processTxList db1 feesSum ts
      | (db1, .ok (some tx)) => processTxList db1 (feesSum + tx.feesAmount) ts
      | (db1, .error e) => (db1, .error e)

/-- `processBlock` (lines 110-127): run the transaction loop, then (only on
success) `processBlockReward` with the accumulated fees. -/
def processBlock (db : DB) (block : BlockWithTransactions) : DB × Except ProcError Unit :=
  match processTxList db 0 block.transactions with
  | (db1, .ok feesSum) => (processBlockReward db1 block feesSum, .ok ())
  | (db1, .error e) => (db1, .error e)

/-- `getLastProcessedBlockNumber` (lines 338-351): return the stored height,
inserting a 0 row first when absent. -/
def getLastProcessedBlockNumber (db : DB) : Nat × DB :=
  match db.lastProcessed with
  | some n => (n, db)
  | none => (0, { db with lastProcessed := some 0 })

/-- `setLastProcessedBlockNumber` (lines 353-358): TypeORM `update` of the
'ETH' row — sets the height when the row exists, no-op when it does not. -/
def setLastProcessedBlockNumber (db : DB) (blockNumber : Nat) : DB :=
  { db with lastProcessed := db.lastProcessed.map (fun _ => blockNumber) }

/-- The per-block body of `pullBlocks` (lines 65-95) applied to a list of
already-fetched blocks, consumed strictly in order: for each block run
`processBlock`, then `setLastProcessedBlockNumber` with the loop counter
`blockNumber`, then continue with `blockNumber + 1`.  An error from
`processBlock` propagates and stops the run before the checkpoint write. -/
def pullBlocksRun (db : DB) (blockNumber : Nat) :
    List BlockWithTransactions → DB × Except ProcError Unit
  | [] => (db, .ok ())
  | b :: rest =>
      match processBlock db b with
      | (db1, .ok ()) =>
          pullBlocksRun (setLastProcessedBlockNumber db1 blockNumber) (blockNumber + 1) rest
      | (db1, .error e) => (db1, .error e)

/-- `transactionRepository.findOne({where: {txHash}})`. -/
def journalFor (db : DB) (txHash : String) : Option TransactionEntity :=
  db.transactions.find? (fun t => t.txHash == txHash)

instance {ε α : Type} [DecidableEq ε] [DecidableEq α] : DecidableEq (Except ε α) := fun
  | .error e1, .error e2 =>
      if h : e1 = e2 then .isTrue (congrArg Except.error h)
      else .isFalse (fun hh => h (Except.error.inj hh))
  | .error _, .ok _ => .isFalse (fun hh => Except.noConfusion hh)
  | .ok _, .error _ => .isFalse (fun hh => Except.noConfusion hh)
  | .ok a1, .ok a2 =>
      if h : a1 = a2 then .isTrue (congrArg Except.ok h)
      else .isFalse (fun hh => h (Except.ok.inj hh))

/-- Modelled from the spec: the three-tier era table in the spec's words —
heights up to and including the first threshold get the highest reward (5),
the middle range up to the second threshold gets the reduced reward (3),
everything above gets the lowest (2), shifted into the chain's smallest
unit by 18 decimals. -/
def baseRewardSpec (height : Nat) : Int :=
  if height ≤ 4369999 then 5 * 10 ^ 18
  else if height ≤ 7279999 then 3 * 10 ^ 18
  else 2 * 10 ^ 18

/-- Modelled from the spec: `burnt = gasUsed × baseFeePerGas` when a base
fee is present, else zero. -/
def burntSpec (gasUsed : Nat) (baseFeePerGas : Option Nat) : Int :=
  match baseFeePerGas with
  | some baseFee => (gasUsed * baseFee : Nat)
  | none => 0

theorem calcBlockReward_eq (block : BlockWithTransactions) (feesSum : Int) :
    calcBlockReward block feesSum =
      baseRewardSpec block.number + feesSum - burntSpec block.gasUsed block.baseFeePerGas := by
  obtain ⟨num, miner, gas, bfo, txs⟩ := block
  unfold calcBlockReward baseRewardSpec burntSpec
  rcases bfo with _ | bf <;> dsimp only
  · split_ifs <;> omega
  · generalize ((gas * bf : Nat) : Int) = B
    split_ifs <;> omega

/-- C4: `calcBlockReward` is a pure function of (height, gasUsed, baseFee,
feesSum) equal to `baseRewardSpec height + feesSum − burntSpec gasUsed
baseFee`; at the era boundaries 4369999/4370000 and 7279999/7280000 the
selected base rewards are the correct, different table entries. -/
theorem c4_calcBlockReward_formula_and_boundaries :
    (∀ (block : BlockWithTransactions) (feesSum : Int),
      calcBlockReward block feesSum =
        baseRewardSpec block.number + feesSum - burntSpec block.gasUsed block.baseFeePerGas)
    ∧ calcBlockReward
        { number := 4369999, miner := "0xm", gasUsed := 7, baseFeePerGas := none,
          transactions := [] } 0 = 5 * 10 ^ 18
    ∧ calcBlockReward
        { number := 4370000, miner := "0xm", gasUsed := 7, baseFeePerGas := none,
          transactions := [] } 0 = 3 * 10 ^ 18
    ∧ calcBlockReward
        { number := 7279999, miner := "0xm", gasUsed := 7, baseFeePerGas := none,
          transactions := [] } 0 = 3 * 10 ^ 18
    ∧ calcBlockReward
        { number := 7280000, miner := "0xm", gasUsed := 7, baseFeePerGas := none,
          transactions := [] } 0 = 2 * 10 ^ 18
    ∧ (5 * 10 ^ 18 : Int) ≠ 3 * 10 ^ 18 ∧ (3 * 10 ^ 18 : Int) ≠ 2 * 10 ^ 18 := by
  exact ⟨calcBlockReward_eq, by decide, by decide, by decide, by decide, by decide, by decide⟩

/-- Sender account for the C1 scenario: `0xa` with balance 100. -/
def accC1a : AccountEntity :=
  { address := "0xa", balance := 100, totalTxCount := 0, incomingTxCount := 0,
    outgoingTxCount := 0, totalFeesPaid := 0, totalReceived := 0, totalSent := 0,
    totalMinedAmount := 0, totalMinedBlocks := 0 }

/-- Receiver account for the C1 scenario: `0xb` with balance 10. -/
def accC1b : AccountEntity :=
  { address := "0xb", balance := 10, totalTxCount := 0, incomingTxCount := 0,
    outgoingTxCount := 0, totalFeesPaid := 0, totalReceived := 0, totalSent := 0,
    totalMinedAmount := 0, totalMinedBlocks := 0 }

/-- State before the C1 scenario. -/
def dbC1 : DB :=
  { accounts := [accC1a, accC1b], transactions := [], blockRewards := [],
    lastProcessed := some 0 }

/-- The C1 scenario transaction: value 50 from `0xA` to `0xB`, reverted
on-chain with fee 3 (gasUsed 3, effectiveGasPrice 1). -/
def txC1 : TransactionResponse :=
  { hash := "0xFAIL1", blockNumber := 1, fromAddr := some "0xA", toAddr := some "0xB",
    value := 50, wait := .rejectedTxFailed { gasUsed := 3, effectiveGasPrice := 1 } }

/-- C1 counterexample: at the concrete scenario the claim as stated is
false — it is not the case that (journal success=false and) the sender's
balance decreased only by the fee (to 97) and the receiver's balance is
unchanged (at 10); the code gives 47 = 100−50−3 and 60 = 10+50. -/
theorem c1_counterexample :
    ¬ (((journalFor (processTx dbC1 txC1).1 "0xfail1").map (·.success) = some false)
        ∧ ((findAccount (processTx dbC1 txC1).1 "0xa").map (·.balance) = some (100 - 3))
        ∧ ((findAccount (processTx dbC1 txC1).1 "0xb").map (·.balance) = some 10)) := by
  decide

/-- C1 amended: for the failed (reverted) transaction of value 50 with fee 3
the journal entry has success=false, amount 50 and feesAmount 3, the
sender's balance decreases by value+fee (100 → 47), and the receiver's
balance increases by the value (10 → 60): the value transfer is applied
unconditionally on success. -/
theorem c1_amended_failed_tx :
    ((journalFor (processTx dbC1 txC1).1 "0xfail1").map (·.success) = some false)
    ∧ ((journalFor (processTx dbC1 txC1).1 "0xfail1").map (·.amount) = some 50)
    ∧ ((journalFor (processTx dbC1 txC1).1 "0xfail1").map (·.feesAmount) = some 3)
    ∧ ((findAccount (processTx dbC1 txC1).1 "0xa").map (·.balance) = some (100 - 50 - 3))
    ∧ ((findAccount (processTx dbC1 txC1).1 "0xb").map (·.balance) = some (10 + 50)) := by
  decide

/-- First transaction of block 6 in the C7 crash scenario (fee 2). -/
def txC7a : TransactionResponse :=
  { hash := "0xT1", blockNumber := 6, fromAddr := some "0xAa", toAddr := some "0xBb",
    value := 10, wait := .resolved { gasUsed := 2, effectiveGasPrice := 1 } }

/-- Second transaction of block 6 in the C7 crash scenario (fee 3). -/
def txC7b : TransactionResponse :=
  { hash := "0xT2", blockNumber := 6, fromAddr := some "0xBb", toAddr := some "0xCc",
    value := 4, wait := .resolved { gasUsed := 3, effectiveGasPrice := 1 } }

/-- Third transaction of block 6 in the C7 crash scenario (fee 4), the one
not yet journaled when the crash hits. -/
def txC7c : TransactionResponse :=
  { hash := "0xT3", blockNumber := 6, fromAddr := some "0xCc", toAddr := some "0xAa",
    value := 1, wait := .resolved { gasUsed := 4, effectiveGasPrice := 1 } }

/-- Block 6 for the C7 scenario. -/
def blockC7 : BlockWithTransactions :=
  { number := 6, miner := "0xM", gasUsed := 10, baseFeePerGas := some 1,
    transactions := [txC7a, txC7b, txC7c] }

/-- State before block 6 in the C7 scenario: nothing journaled, checkpoint
at 5. -/
def dbC7 : DB :=
  { accounts := [], transactions := [], blockRewards := [], lastProcessed := some 5 }

/-- State at the crash: the first two transactions of block 6 have been
journaled, `processBlockReward` has not run, the checkpoint still reads 5. -/
def dbC7crash : DB := (processTxList dbC7 0 [txC7a, txC7b]).1

/-- C7: the crash run journaled the first two transactions (fees 2+3);
reprocessing block 6 from the unchanged checkpoint skips both already
journaled transactions (processTx returns the duplicate marker), succeeds,
leaves exactly one journal row per hash — so the third transaction was
processed — and exactly one BlockReward row for block 6. -/
theorem c7_crash_reprocess_single_reward :
    (processTxList dbC7 0 [txC7a, txC7b]).2 = .ok 5
    ∧ dbC7crash.blockRewards = []
    ∧ dbC7crash.lastProcessed = some 5
    ∧ (processTx dbC7crash txC7a).2 = .ok none
    ∧ (processTx dbC7crash txC7b).2 = .ok none
    ∧ (processBlock dbC7crash blockC7).2 = .ok ()
    ∧ (processBlock dbC7crash blockC7).1.transactions.countP (fun t => t.txHash == "0xt1") = 1
    ∧ (processBlock dbC7crash blockC7).1.transactions.countP (fun t => t.txHash == "0xt2") = 1
    ∧ (processBlock dbC7crash blockC7).1.transactions.countP (fun t => t.txHash == "0xt3") = 1
    ∧ (processBlock dbC7crash blockC7).1.blockRewards.countP (fun r => r.blockNumber == 6) = 1 := by
  decide

theorem find?_append_of_some {α : Type} {p : α → Bool} {l : List α} (l' : List α) {a : α}
    (h : l.find? p = some a) : (l ++ l').find? p = some a := by
  induction l with
  | nil => simp [List.find?] at h
  | cons x xs ih =>
      by_cases hx : p x = true
      · rw [List.find?_cons_of_pos _ hx] at h
        rw [List.cons_append, List.find?_cons_of_pos _ hx]
        exact h
      · rw [List.find?_cons_of_neg _ hx] at h
        rw [List.cons_append, List.find?_cons_of_neg _ hx]
        exact ih h

theorem find?_append_of_none {α : Type} {p : α → Bool} {l : List α} (l' : List α)
    (h : l.find? p = none) : (l ++ l').find? p = l'.find? p := by
  induction l with
  | nil => simp
  | cons x xs ih =>
      by_cases hx : p x = true
      · rw [List.find?_cons_of_pos _ hx] at h
        exact absurd h (by simp)
      · rw [List.find?_cons_of_neg _ hx] at h
        rw [List.cons_append, List.find?_cons_of_neg _ hx]
        exact ih h

theorem find?_map_comm {α : Type} (f : α → α) (p : α → Bool) (l : List α)
    (hf : ∀ a, p (f a) = p a) : (l.map f).find? p = (l.find? p).map f := by
  induction l with
  | nil => simp
  | cons x xs ih =>
      by_cases hx : p x = true
      · rw [List.map_cons, List.find?_cons_of_pos _ (by rw [hf x]; exact hx),
            List.find?_cons_of_pos _ hx, Option.map_some']
      · rw [List.map_cons, List.find?_cons_of_neg _ (by rw [hf x]; exact hx),
            List.find?_cons_of_neg _ hx]
        exact ih

theorem processTx_dup {db : DB} {t : TransactionResponse}
    (hd : checkTxExists db (strToLower t.hash) = true) :
    processTx db t = (db, .ok none) := by
  unfold processTx
  simp [hd]

theorem processTx_transport {db : DB} {t : TransactionResponse}
    (hd : checkTxExists db (strToLower t.hash) = false)
    (hw : t.wait = .rejectedOther) :
    processTx db t = ((resolveAccounts db t).2.2, .error .transport) := by
  unfold processTx
  simp [hd, hw]

theorem processTx_resolved {db : DB} {t : TransactionResponse} {rc : TxReceipt}
    (hd : checkTxExists db (strToLower t.hash) = false)
    (hw : t.wait = .resolved rc) :
    processTx db t =
      ((applyReceipt (resolveAccounts db t).2.2 t (resolveAccounts db t).1
          (resolveAccounts db t).2.1 true rc).1,
        .ok (some (applyReceipt (resolveAccounts db t).2.2 t (resolveAccounts db t).1
          (resolveAccounts db t).2.1 true rc).2)) := by
  unfold processTx
  simp [hd, hw]

theorem processTx_rejectedTxFailed {db : DB} {t : TransactionResponse} {rc : TxReceipt}
    (hd : checkTxExists db (strToLower t.hash) = false)
    (hw : t.wait = .rejectedTxFailed rc) :
    processTx db t =
      ((applyReceipt (resolveAccounts db t).2.2 t (resolveAccounts db t).1
          (resolveAccounts db t).2.1 false rc).1,
        .ok (some (applyReceipt (resolveAccounts db t).2.2 t (resolveAccounts db t).1
          (resolveAccounts db t).2.1 false rc).2)) := by
  unfold processTx
  simp [hd, hw]

theorem getOrCreateAccount_address (db : DB) (addr : String) :
    (getOrCreateAccount db addr).1.address = addr := by
  unfold getOrCreateAccount
  cases h : findAccount db addr with
  | none => rfl
  | some a =>
      have hp := List.find?_some h
      simpa using (eq_of_beq hp)

theorem getOrCreateAccount_of_found {db : DB} {addr : String} {a : AccountEntity}
    (h : findAccount db addr = some a) : getOrCreateAccount db addr = (a, db) := by
  unfold getOrCreateAccount
  rw [h]

theorem findAccount_getOrCreate_self (db : DB) (addr : String) :
    findAccount (getOrCreateAccount db addr).2 addr = some (getOrCreateAccount db addr).1 := by
  unfold getOrCreateAccount
  cases h : findAccount db addr with
  | some a => exact h
  | none =>
      show findAccount ⟨db.accounts ++ [_], _, _, _⟩ addr = _
      unfold findAccount at h ⊢
      rw [find?_append_of_none _ h]
      simp [List.find?]

theorem findAccount_getOrCreate_preserved {db : DB} {x : String} {a : AccountEntity}
    (addr : String) (h : findAccount db x = some a) :
    findAccount (getOrCreateAccount db addr).2 x = some a := by
  unfold getOrCreateAccount
  cases hf : findAccount db addr with
  | some b => exact h
  | none =>
      show findAccount ⟨db.accounts ++ [_], _, _, _⟩ x = _
      unfold findAccount at h ⊢
      exact find?_append_of_some _ h

theorem findAccount_update (db : DB) (rec : AccountEntity) (x : String) :
    findAccount (updateAccountStats db rec) x =
      (findAccount db x).map (fun a => if a.address == rec.address then rec else a) := by
  unfold updateAccountStats findAccount
  apply find?_map_comm
  intro a
  by_cases ha : a.address == rec.address
  · simp only [ha, if_true]
    have : a.address = rec.address := eq_of_beq ha
    rw [this]
  · simp [ha]

theorem updateAccountStats_frame (db : DB) (rec : AccountEntity) :
    (updateAccountStats db rec).transactions = db.transactions
    ∧ (updateAccountStats db rec).blockRewards = db.blockRewards
    ∧ (updateAccountStats db rec).lastProcessed = db.lastProcessed :=
  ⟨rfl, rfl, rfl⟩

theorem getOrCreateAccount_frame (db : DB) (addr : String) :
    (getOrCreateAccount db addr).2.transactions = db.transactions
    ∧ (getOrCreateAccount db addr).2.blockRewards = db.blockRewards
    ∧ (getOrCreateAccount db addr).2.lastProcessed = db.lastProcessed := by
  unfold getOrCreateAccount
  cases h : findAccount db addr <;> exact ⟨rfl, rfl, rfl⟩

theorem resolveAccounts_frame (db : DB) (t : TransactionResponse) :
    (resolveAccounts db t).2.2.transactions = db.transactions
    ∧ (resolveAccounts db t).2.2.blockRewards = db.blockRewards
    ∧ (resolveAccounts db t).2.2.lastProcessed = db.lastProcessed := by
  unfold resolveAccounts
  cases hf : t.fromAddr.map strToLower <;> cases ht : t.toAddr.map strToLower <;>
    simp only [hf, ht] <;>
    refine ⟨?_, ?_, ?_⟩ <;>
    simp [(getOrCreateAccount_frame _ _).1, (getOrCreateAccount_frame _ _).2.1,
      (getOrCreateAccount_frame _ _).2.2]

theorem applyReceipt_fst_transactions (db2 : DB) (t : TransactionResponse)
    (aF aT : Option AccountEntity) (s : Bool) (rc : TxReceipt) :
    (applyReceipt db2 t aF aT s rc).1.transactions =
      db2.transactions ++ [(applyReceipt db2 t aF aT s rc).2] := by
  unfold applyReceipt
  cases aF <;> cases aT <;> simp [saveTx, updateAccountStats]

theorem applyReceipt_fst_blockRewards (db2 : DB) (t : TransactionResponse)
    (aF aT : Option AccountEntity) (s : Bool) (rc : TxReceipt) :
    (applyReceipt db2 t aF aT s rc).1.blockRewards = db2.blockRewards := by
  unfold applyReceipt
  cases aF <;> cases aT <;> simp [saveTx, updateAccountStats]

theorem applyReceipt_fst_lastProcessed (db2 : DB) (t : TransactionResponse)
    (aF aT : Option AccountEntity) (s : Bool) (rc : TxReceipt) :
    (applyReceipt db2 t aF aT s rc).1.lastProcessed = db2.lastProcessed := by
  unfold applyReceipt
  cases aF <;> cases aT <;> simp [saveTx, updateAccountStats]

theorem processTx_blockRewards (db : DB) (t : TransactionResponse) :
    (processTx db t).1.blockRewards = db.blockRewards := by
  by_cases hd : checkTxExists db (strToLower t.hash) = true
  · rw [processTx_dup hd]
  · cases hw : t.wait with
    | rejectedOther =>
        rw [processTx_transport (by simpa using hd) hw]
        exact (resolveAccounts_frame db t).2.1
    | resolved rc =>
        rw [processTx_resolved (by simpa using hd) hw]
        rw [applyReceipt_fst_blockRewards]
        exact (resolveAccounts_frame db t).2.1
    | rejectedTxFailed rc =>
        rw [processTx_rejectedTxFailed (by simpa using hd) hw]
        rw [applyReceipt_fst_blockRewards]
        exact (resolveAccounts_frame db t).2.1

theorem processTx_lastProcessed (db : DB) (t : TransactionResponse) :
    (processTx db t).1.lastProcessed = db.lastProcessed := by
  by_cases hd : checkTxExists db (strToLower t.hash) = true
  · rw [processTx_dup hd]
  · cases hw : t.wait with
    | rejectedOther =>
        rw [processTx_transport (by simpa using hd) hw]
        exact (resolveAccounts_frame db t).2.2
    | resolved rc =>
        rw [processTx_resolved (by simpa using hd) hw]
        rw [applyReceipt_fst_lastProcessed]
        exact (resolveAccounts_frame db t).2.2
    | rejectedTxFailed rc =>
        rw [processTx_rejectedTxFailed (by simpa using hd) hw]
        rw [applyReceipt_fst_lastProcessed]
        exact (resolveAccounts_frame db t).2.2

theorem processTxList_blockRewards (ts : List TransactionResponse) :
    ∀ (db : DB) (fs : Int), (processTxList db fs ts).1.blockRewards = db.blockRewards := by
  induction ts with
  | nil => intro db fs; rfl
  | cons t ts ih =>
      intro db fs
      unfold processTxList
      rcases hp : processTx db t with ⟨db1, r⟩
      have hbr : db1.blockRewards = db.blockRewards := by
        have := processTx_blockRewards db t
        rw [hp] at this
        exact this
      rcases r with e | o
      · simpa using hbr
      · rcases o with _ | tx <;> simp [ih, hbr]

theorem processTxList_lastProcessed (ts : List TransactionResponse) :
    ∀ (db : DB) (fs : Int), (processTxList db fs ts).1.lastProcessed = db.lastProcessed := by
  induction ts with
  | nil => intro db fs; rfl
  | cons t ts ih =>
      intro db fs
      unfold processTxList
      rcases hp : processTx db t with ⟨db1, r⟩
      have hbr : db1.lastProcessed = db.lastProcessed := by
        have := processTx_lastProcessed db t
        rw [hp] at this
        exact this
      rcases r with e | o
      · simpa using hbr
      · rcases o with _ | tx <;> simp [ih, hbr]

theorem applyReceipt_entity (db2 : DB) (t : TransactionResponse)
    (aF aT : Option AccountEntity) (s : Bool) (rc : TxReceipt) :
    (applyReceipt db2 t aF aT s rc).2 =
      { txHash := strToLower t.hash
        blockNumber := t.blockNumber
        fromAddr := t.fromAddr.map strToLower
        toAddr := t.toAddr.map strToLower
        success := s
        amount := (t.value : Int)
        feesAmount := calcFeesAmount rc
        totalAmount := calcFeesAmount rc + (t.value : Int)
        fromPreviousBalance := aF.map (·.balance)
        toPreviousBalance := aT.map (·.balance)
        fromNextBalance := (aF.map (·.balance)).map (fun b => b - (t.value : Int) - calcFeesAmount rc)
        toNextBalance := (aT.map (·.balance)).map (fun b => b + (t.value : Int)) } := rfl

theorem applyReceipt_balance_eqs (db2 : DB) (t : TransactionResponse)
    (aF aT : Option AccountEntity) (s : Bool) (rc : TxReceipt) :
    (∀ B, (applyReceipt db2 t aF aT s rc).2.fromPreviousBalance = some B →
      (applyReceipt db2 t aF aT s rc).2.fromNextBalance =
        some (B - (applyReceipt db2 t aF aT s rc).2.amount -
          (applyReceipt db2 t aF aT s rc).2.feesAmount))
    ∧ (∀ B, (applyReceipt db2 t aF aT s rc).2.toPreviousBalance = some B →
      (applyReceipt db2 t aF aT s rc).2.toNextBalance =
        some (B + (applyReceipt db2 t aF aT s rc).2.amount)) := by
  rw [applyReceipt_entity]
  constructor <;> intro B hB <;> cases aF <;> cases aT <;> simp_all

/-- C2: every journal entry produced by `processTx` is persisted, and on it
`fromNextBalance = fromPreviousBalance − amount − feesAmount` whenever the
sender's previous balance is known, and `toNextBalance = toPreviousBalance
+ amount` whenever the receiver's previous balance is known; the embedding
computes these in exact integer (arbitrary-precision) arithmetic. -/
theorem c2_next_balance_formulas (db : DB) (t : TransactionResponse) (e : TransactionEntity)
    (h : (processTx db t).2 = .ok (some e)) :
    e ∈ (processTx db t).1.transactions
    ∧ (∀ B, e.fromPreviousBalance = some B →
        e.fromNextBalance = some (B - e.amount - e.feesAmount))
    ∧ (∀ B, e.toPreviousBalance = some B →
        e.toNextBalance = some (B + e.amount)) := by
  by_cases hd : checkTxExists db (strToLower t.hash) = true
  · rw [processTx_dup hd] at h
    simp at h
  · replace hd : checkTxExists db (strToLower t.hash) = false := by simpa using hd
    cases hw : t.wait with
    | rejectedOther =>
        rw [processTx_transport hd hw] at h
        simp at h
    | resolved rc =>
        rw [processTx_resolved hd hw] at h ⊢
        simp only [Except.ok.injEq, Option.some.injEq] at h
        subst h
        refine ⟨?_, (applyReceipt_balance_eqs _ _ _ _ _ _).1,
          (applyReceipt_balance_eqs _ _ _ _ _ _).2⟩
        rw [applyReceipt_fst_transactions]
        simp
    | rejectedTxFailed rc =>
        rw [processTx_rejectedTxFailed hd hw] at h ⊢
        simp only [Except.ok.injEq, Option.some.injEq] at h
        subst h
        refine ⟨?_, (applyReceipt_balance_eqs _ _ _ _ _ _).1,
          (applyReceipt_balance_eqs _ _ _ _ _ _).2⟩
        rw [applyReceipt_fst_transactions]
        simp

/-- Witness for C2 at a concrete successful transaction of value 5 with fee
6 between two freshly created accounts. -/
theorem c2_next_balance_formulas_witness :
    ({ txHash := "0xw2", blockNumber := 1, fromAddr := some "0xd", toAddr := some "0xe",
       success := true, amount := 5, feesAmount := 6, totalAmount := 11,
       fromPreviousBalance := some 0, toPreviousBalance := some 0,
       fromNextBalance := some (-11), toNextBalance := some 5 } : TransactionEntity) ∈
      (processTx ⟨[], [], [], some 0⟩
        { hash := "0xW2", blockNumber := 1, fromAddr := some "0xD", toAddr := some "0xE",
          value := 5, wait := .resolved { gasUsed := 2, effectiveGasPrice := 3 } }).1.transactions
    ∧ (∀ B, (some 0 : Option Int) = some B → (some (-11) : Option Int) = some (B - 5 - 6))
    ∧ (∀ B, (some 0 : Option Int) = some B → (some 5 : Option Int) = some (B + 5)) := by
  have h := c2_next_balance_formulas ⟨[], [], [], some 0⟩
    { hash := "0xW2", blockNumber := 1, fromAddr := some "0xD", toAddr := some "0xE",
      value := 5, wait := .resolved { gasUsed := 2, effectiveGasPrice := 3 } }
    { txHash := "0xw2", blockNumber := 1, fromAddr := some "0xd", toAddr := some "0xe",
      success := true, amount := 5, feesAmount := 6, totalAmount := 11,
      fromPreviousBalance := some 0, toPreviousBalance := some 0,
      fromNextBalance := some (-11), toNextBalance := some 5 }
    (by decide)
  exact h

/-- Whether `processTx` journaled a new entry (returned a defined entity in
the TS code). -/
def processedNew (db : DB) (t : TransactionResponse) : Bool :=
  match (processTx db t).2 with
  | .ok (some _) => true
  | _ => false

theorem checkTxExists_false_find? {db : DB} {h : String}
    (hd : checkTxExists db h = false) :
    db.transactions.find? (fun r => r.txHash == h) = none := by
  unfold checkTxExists at hd
  exact Option.not_isSome_iff_eq_none.mp (by simp [hd])

theorem applyReceipt_journal_unique {db : DB} {t : TransactionResponse}
    (s : Bool) (rc : TxReceipt)
    (hd : checkTxExists db (strToLower t.hash) = false) :
    checkTxExists
        (applyReceipt (resolveAccounts db t).2.2 t (resolveAccounts db t).1
          (resolveAccounts db t).2.1 s rc).1 (strToLower t.hash) = true
    ∧ (applyReceipt (resolveAccounts db t).2.2 t (resolveAccounts db t).1
        (resolveAccounts db t).2.1 s rc).1.transactions.countP
          (fun r => r.txHash == strToLower t.hash) = 1 := by
  have hfr := (resolveAccounts_frame db t).1
  have htx := applyReceipt_fst_transactions (resolveAccounts db t).2.2 t
    (resolveAccounts db t).1 (resolveAccounts db t).2.1 s rc
  have hnone : (resolveAccounts db t).2.2.transactions.find?
      (fun r => r.txHash == strToLower t.hash) = none := by
    rw [hfr]
    exact checkTxExists_false_find? hd
  have hhash : (applyReceipt (resolveAccounts db t).2.2 t (resolveAccounts db t).1
      (resolveAccounts db t).2.1 s rc).2.txHash = strToLower t.hash := by
    rw [applyReceipt_entity]
  constructor
  · unfold checkTxExists
    rw [htx, find?_append_of_none _ hnone]
    simp [List.find?, hhash]
  · rw [htx, List.countP_append]
    have h0 : (resolveAccounts db t).2.2.transactions.countP
        (fun r => r.txHash == strToLower t.hash) = 0 := by
      rw [List.countP_eq_zero]
      intro a ha
      have := List.find?_eq_none.mp hnone a ha
      simpa using this
    rw [h0]
    simp [List.countP, List.countP.go, hhash]

/-- C3: re-observing an already journaled transaction hash is a complete
no-op — `processTx` returns the duplicate marker and the state unchanged,
for every `wait` outcome (so the receipt is never needed); and after a
transaction is processed once, processing it again is such a no-op and the
journal holds exactly one entry for its hash. -/
theorem c3_idempotency (db : DB) (t : TransactionResponse) :
    (checkTxExists db (strToLower t.hash) = true → processTx db t = (db, .ok none))
    ∧ (processedNew db t = true →
        processTx (processTx db t).1 t = ((processTx db t).1, .ok none)
        ∧ (processTx db t).1.transactions.countP
            (fun r => r.txHash == strToLower t.hash) = 1) := by
  constructor
  · exact processTx_dup
  · intro hp
    by_cases hd : checkTxExists db (strToLower t.hash) = true
    · unfold processedNew at hp
      rw [processTx_dup hd] at hp
      simp at hp
    · replace hd : checkTxExists db (strToLower t.hash) = false := by simpa using hd
      cases hw : t.wait with
      | rejectedOther =>
          unfold processedNew at hp
          rw [processTx_transport hd hw] at hp
          simp at hp
      | resolved rc =>
          rw [processTx_resolved hd hw]
          have := applyReceipt_journal_unique true rc hd
          exact ⟨processTx_dup this.1, this.2⟩
      | rejectedTxFailed rc =>
          rw [processTx_rejectedTxFailed hd hw]
          have := applyReceipt_journal_unique false rc hd
          exact ⟨processTx_dup this.1, this.2⟩

/-- Witness for C3: the duplicate arm on a state already holding the hash,
and the process-twice arm from an empty journal. -/
theorem c3_idempotency_witness :
    (processTx
        ⟨[], [{ txHash := "0xw3", blockNumber := 1, fromAddr := none, toAddr := none,
                success := true, amount := 0, feesAmount := 0, totalAmount := 0,
                fromPreviousBalance := none, toPreviousBalance := none,
                fromNextBalance := none, toNextBalance := none }], [], some 0⟩
        { hash := "0xW3", blockNumber := 1, fromAddr := some "0xD", toAddr := some "0xE",
          value := 5, wait := .resolved { gasUsed := 2, effectiveGasPrice := 3 } } =
      (⟨[], [{ txHash := "0xw3", blockNumber := 1, fromAddr := none, toAddr := none,
                success := true, amount := 0, feesAmount := 0, totalAmount := 0,
                fromPreviousBalance := none, toPreviousBalance := none,
                fromNextBalance := none, toNextBalance := none }], [], some 0⟩, .ok none))
    ∧ (processTx
        (processTx ⟨[], [], [], some 0⟩
          { hash := "0xW3", blockNumber := 1, fromAddr := some "0xD", toAddr := some "0xE",
            value := 5, wait := .resolved { gasUsed := 2, effectiveGasPrice := 3 } }).1
        { hash := "0xW3", blockNumber := 1, fromAddr := some "0xD", toAddr := some "0xE",
          value := 5, wait := .resolved { gasUsed := 2, effectiveGasPrice := 3 } } =
      ((processTx ⟨[], [], [], some 0⟩
          { hash := "0xW3", blockNumber := 1, fromAddr := some "0xD", toAddr := some "0xE",
            value := 5, wait := .resolved { gasUsed := 2, effectiveGasPrice := 3 } }).1, .ok none)
       ∧ (processTx ⟨[], [], [], some 0⟩
          { hash := "0xW3", blockNumber := 1, fromAddr := some "0xD", toAddr := some "0xE",
            value := 5, wait := .resolved { gasUsed := 2, effectiveGasPrice := 3 } }).1.transactions.countP
            (fun r => r.txHash == strToLower "0xW3") = 1) :=
  ⟨(c3_idempotency _ _).1 (by decide), (c3_idempotency _ _).2 (by decide)⟩

/-- C10: the fee sum the Block Processor hands to the Reward Calculator
counts only transactions processed in the current run — a transaction
skipped by the duplicate check leaves both the state and the accumulated
fee sum untouched; `processBlock` applies `processBlockReward` to exactly
the loop's fee sum; the inserted BlockReward row carries
`calcBlockReward` of that sum; and the computed reward is strictly smaller
than it would be with any additional positive fee included. -/
theorem c10_reward_counts_only_new_fees (db : DB) (t : TransactionResponse)
    (ts : List TransactionResponse) (fs : Int) (b : BlockWithTransactions) :
    (checkTxExists db (strToLower t.hash) = true →
      processTxList db fs (t :: ts) = processTxList db fs ts)
    ∧ (∀ (db1 : DB) (F : Int), processTxList db 0 b.transactions = (db1, .ok F) →
        processBlock db b = (processBlockReward db1 b F, .ok ()))
    ∧ (∀ (db1 : DB) (F : Int),
        (processBlockReward db1 b F).blockRewards =
          db1.blockRewards ++
            [{ blockNumber := b.number, account := strToLower b.miner,
               amount := calcBlockReward b F }])
    ∧ (∀ (F φ : Int), 0 < φ → calcBlockReward b F < calcBlockReward b (F + φ)) := by
  refine ⟨fun h => ?_, fun db1 F h => ?_, fun db1 F => ?_, fun F φ hφ => ?_⟩
  · simp [processTxList, processTx_dup h]
  · unfold processBlock
    rw [h]
  · simp only [processBlockReward]
    rw [(updateAccountStats_frame _ _).2.1, (getOrCreateAccount_frame _ _).2.1]
  · rw [calcBlockReward_eq, calcBlockReward_eq]
    linarith

/-- State for the C10 witness: the journal already holds hash `0xw4`. -/
def dbC10 : DB :=
  ⟨[], [{ txHash := "0xw4", blockNumber := 1, fromAddr := none, toAddr := none,
          success := true, amount := 0, feesAmount := 7, totalAmount := 7,
          fromPreviousBalance := none, toPreviousBalance := none,
          fromNextBalance := none, toNextBalance := none }], [], some 0⟩

/-- Duplicate of the already journaled transaction for the C10 witness. -/
def txC10 : TransactionResponse :=
  { hash := "0xW4", blockNumber := 2, fromAddr := some "0xD", toAddr := some "0xE",
    value := 5, wait := .resolved { gasUsed := 2, effectiveGasPrice := 3 } }

/-- Empty block for the C10 witness. -/
def blockC10 : BlockWithTransactions :=
  { number := 2, miner := "0xM", gasUsed := 0, baseFeePerGas := none, transactions := [] }

/-- Witness for C10: the duplicate-skip arm, the fee-sum-to-reward arm and
the strict monotonicity arm at concrete inputs. -/
theorem c10_reward_counts_only_new_fees_witness :
    processTxList dbC10 0 [txC10] = processTxList dbC10 0 []
    ∧ processBlock dbC10 blockC10 = (processBlockReward dbC10 blockC10 0, .ok ())
    ∧ calcBlockReward blockC10 0 < calcBlockReward blockC10 (0 + 1) :=
  ⟨(c10_reward_counts_only_new_fees dbC10 txC10 [] 0 blockC10).1 (by decide),
   (c10_reward_counts_only_new_fees dbC10 txC10 [] 0 blockC10).2.1 dbC10 0 (by decide),
   (c10_reward_counts_only_new_fees dbC10 txC10 [] 0 blockC10).2.2.2 0 1 (by decide)⟩

/-- The account-counter invariant of the spec:
`totalTxCount = incomingTxCount + outgoingTxCount`. -/
def accountInvariant (a : AccountEntity) : Prop :=
  a.totalTxCount = a.incomingTxCount + a.outgoingTxCount

instance (a : AccountEntity) : Decidable (accountInvariant a) := by
  unfold accountInvariant; infer_instance

/-- The account-counter invariant over every stored account. -/
def dbInvariant (db : DB) : Prop :=
  ∀ a ∈ db.accounts, accountInvariant a

instance (db : DB) : Decidable (dbInvariant db) :=
  List.decidableBAll _ _

theorem saveTx_inv {db : DB} (tx : TransactionEntity) (h : dbInvariant db) :
    dbInvariant (saveTx db tx) := h

theorem getOrCreateAccount_inv {db : DB} (addr : String) (h : dbInvariant db) :
    accountInvariant (getOrCreateAccount db addr).1
    ∧ dbInvariant (getOrCreateAccount db addr).2 := by
  unfold getOrCreateAccount
  cases hf : findAccount db addr with
  | some a =>
      exact ⟨h a (List.mem_of_find?_eq_some hf), h⟩
  | none =>
      constructor
      · show accountInvariant _
        simp [accountInvariant]
      · intro a ha
        rcases List.mem_append.mp ha with h1 | h2
        · exact h a h1
        · have : a = _ := List.mem_singleton.mp h2
          subst this
          simp [accountInvariant]

theorem updateAccountStats_inv {db : DB} {rec : AccountEntity}
    (h : dbInvariant db) (hr : accountInvariant rec) :
    dbInvariant (updateAccountStats db rec) := by
  intro a ha
  unfold updateAccountStats at ha
  simp only [List.mem_map] at ha
  obtain ⟨b, hb, hfb⟩ := ha
  by_cases hba : b.address == rec.address
  · rw [if_pos hba] at hfb
    subst hfb
    exact hr
  · rw [if_neg hba] at hfb
    subst hfb
    exact h b hb

theorem applyReceipt_inv {db2 : DB} {t : TransactionResponse}
    {aF aT : Option AccountEntity} {s : Bool} {rc : TxReceipt}
    (h : dbInvariant db2)
    (hF : ∀ a, aF = some a → accountInvariant a)
    (hT : ∀ a, aT = some a → accountInvariant a) :
    dbInvariant (applyReceipt db2 t aF aT s rc).1 := by
  unfold applyReceipt
  cases aF with
  | none =>
      cases aT with
      | none => exact saveTx_inv _ h
      | some rcv =>
          refine updateAccountStats_inv (saveTx_inv _ h) ?_
          have h2 := hT rcv rfl
          unfold accountInvariant at h2 ⊢
          simp only [receiverRecord]
          omega
  | some fr =>
      cases aT with
      | none =>
          refine updateAccountStats_inv (saveTx_inv _ h) ?_
          have h2 := hF fr rfl
          unfold accountInvariant at h2 ⊢
          simp only [senderRecord]
          omega
      | some rcv =>
          refine updateAccountStats_inv (updateAccountStats_inv (saveTx_inv _ h) ?_) ?_
          · have h2 := hT rcv rfl
            unfold accountInvariant at h2 ⊢
            simp only [receiverRecord]
            omega
          · have h2 := hF fr rfl
            unfold accountInvariant at h2 ⊢
            simp only [senderRecord]
            omega

theorem resolveAccounts_inv {db : DB} {t : TransactionResponse} (h : dbInvariant db) :
    dbInvariant (resolveAccounts db t).2.2
    ∧ (∀ a, (resolveAccounts db t).1 = some a → accountInvariant a)
    ∧ (∀ a, (resolveAccounts db t).2.1 = some a → accountInvariant a) := by
  unfold resolveAccounts
  cases hf : t.fromAddr.map strToLower with
  | none =>
      cases ht : t.toAddr.map strToLower with
      | none => exact ⟨h, by simp, by simp⟩
      | some g =>
          refine ⟨(getOrCreateAccount_inv g h).2, by simp, ?_⟩
          intro a ha
          simp only [Option.some.injEq] at ha
          subst ha
          exact (getOrCreateAccount_inv g h).1
  | some f =>
      have h1 := getOrCreateAccount_inv f h
      cases ht : t.toAddr.map strToLower with
      | none =>
          refine ⟨h1.2, ?_, by simp⟩
          intro a ha
          simp only [Option.some.injEq] at ha
          subst ha
          exact h1.1
      | some g =>
          have h2 := getOrCreateAccount_inv g h1.2
          refine ⟨h2.2, ?_, ?_⟩ <;> intro a ha <;> simp only [Option.some.injEq] at ha <;> subst ha
          · exact h1.1
          · exact h2.1

theorem processTx_inv {db : DB} (t : TransactionResponse) (h : dbInvariant db) :
    dbInvariant (processTx db t).1 := by
  by_cases hd : checkTxExists db (strToLower t.hash) = true
  · rw [processTx_dup hd]; exact h
  · replace hd : checkTxExists db (strToLower t.hash) = false := by simpa using hd
    have hr := resolveAccounts_inv (t := t) h
    cases hw : t.wait with
    | rejectedOther =>
        rw [processTx_transport hd hw]
        exact hr.1
    | resolved rc =>
        rw [processTx_resolved hd hw]
        exact applyReceipt_inv hr.1 hr.2.1 hr.2.2
    | rejectedTxFailed rc =>
        rw [processTx_rejectedTxFailed hd hw]
        exact applyReceipt_inv hr.1 hr.2.1 hr.2.2

theorem processBlockReward_inv {db : DB} (b : BlockWithTransactions) (fs : Int)
    (h : dbInvariant db) : dbInvariant (processBlockReward db b fs) := by
  unfold processBlockReward
  dsimp only
  have h1 : dbInvariant { db with blockRewards := db.blockRewards ++
    [{ blockNumber := b.number, account := strToLower b.miner,
       amount := calcBlockReward b fs }] } := h
  have h2 := getOrCreateAccount_inv (strToLower b.miner) h1
  refine updateAccountStats_inv h2.2 ?_
  have h3 := h2.1
  unfold accountInvariant at h3 ⊢
  simpa using h3

theorem processTxList_inv (ts : List TransactionResponse) :
    ∀ (db : DB) (fs : Int), dbInvariant db → dbInvariant (processTxList db fs ts).1 := by
  induction ts with
  | nil => intro db fs h; exact h
  | cons t ts ih =>
      intro db fs h
      have h1 := processTx_inv t h
      unfold processTxList
      rcases hp : processTx db t with ⟨db1, r⟩
      rw [hp] at h1
      rcases r with e | o
      · exact h1
      · rcases o with _ | tx <;> exact ih db1 _ h1

theorem processBlock_inv {db : DB} (b : BlockWithTransactions) (h : dbInvariant db) :
    dbInvariant (processBlock db b).1 := by
  unfold processBlock
  have h1 := processTxList_inv b.transactions db 0 h
  rcases hp : processTxList db 0 b.transactions with ⟨db1, r⟩
  rw [hp] at h1
  rcases r with e | fs
  · exact h1
  · exact processBlockReward_inv b fs h1

/-- C8: `totalTxCount = incomingTxCount + outgoingTxCount` for every stored
account is preserved by every account-mutating operation: account creation
(`getOrCreateAccount`), the receiver and sender arms of `processTx`, the
miner arm (`processBlockReward`), and hence a whole `processBlock`; a
freshly created account satisfies it. -/
theorem c8_totalTxCount_invariant (db : DB) (h : dbInvariant db) :
    (∀ addr, accountInvariant (getOrCreateAccount db addr).1
      ∧ dbInvariant (getOrCreateAccount db addr).2)
    ∧ (∀ t, dbInvariant (processTx db t).1)
    ∧ (∀ b fs, dbInvariant (processBlockReward db b fs))
    ∧ (∀ b, dbInvariant (processBlock db b).1) :=
  ⟨fun addr => getOrCreateAccount_inv addr h,
   fun t => processTx_inv t h,
   fun b fs => processBlockReward_inv b fs h,
   fun b => processBlock_inv b h⟩

/-- Account with a nontrivial counter split for the C8 witness. -/
def accC8 : AccountEntity :=
  { address := "0xq", balance := 40, totalTxCount := 3, incomingTxCount := 2,
    outgoingTxCount := 1, totalFeesPaid := 5, totalReceived := 30, totalSent := 10,
    totalMinedAmount := 0, totalMinedBlocks := 0 }

/-- State for the C8 witness. -/
def dbC8 : DB := ⟨[accC8], [], [], some 0⟩

/-- Transaction for the C8 witness (sender `0xq` exists, receiver is new). -/
def txC8 : TransactionResponse :=
  { hash := "0xW8", blockNumber := 3, fromAddr := some "0xQ", toAddr := some "0xR",
    value := 5, wait := .resolved { gasUsed := 2, effectiveGasPrice := 3 } }

/-- Block for the C8 witness, mined by the existing account. -/
def blockC8 : BlockWithTransactions :=
  { number := 3, miner := "0xQ", gasUsed := 2, baseFeePerGas := some 1,
    transactions := [txC8] }

/-- Witness for C8 at a concrete state satisfying the invariant. -/
theorem c8_totalTxCount_invariant_witness :
    (accountInvariant (getOrCreateAccount dbC8 "0xz").1
      ∧ dbInvariant (getOrCreateAccount dbC8 "0xz").2)
    ∧ dbInvariant (processTx dbC8 txC8).1
    ∧ dbInvariant (processBlockReward dbC8 blockC8 6)
    ∧ dbInvariant (processBlock dbC8 blockC8).1 :=
  ⟨(c8_totalTxCount_invariant dbC8 (by decide)).1 "0xz",
   (c8_totalTxCount_invariant dbC8 (by decide)).2.1 txC8,
   (c8_totalTxCount_invariant dbC8 (by decide)).2.2.1 blockC8 6,
   (c8_totalTxCount_invariant dbC8 (by decide)).2.2.2 blockC8⟩

/-- Mined-statistics preservation from `db` to `db'`: every account stored
in `db` is still found in `db'` with unchanged `totalMinedAmount` and
`totalMinedBlocks`. -/
def minedPreserved (db db' : DB) : Prop :=
  ∀ addr a, findAccount db addr = some a →
    ∃ a', findAccount db' addr = some a'
      ∧ a'.totalMinedAmount = a.totalMinedAmount
      ∧ a'.totalMinedBlocks = a.totalMinedBlocks

theorem minedPreserved_refl (db : DB) : minedPreserved db db :=
  fun _ a ha => ⟨a, ha, rfl, rfl⟩

theorem minedPreserved_trans {db1 db2 db3 : DB}
    (h12 : minedPreserved db1 db2) (h23 : minedPreserved db2 db3) :
    minedPreserved db1 db3 := by
  intro addr a ha
  obtain ⟨b, hb, hb1, hb2⟩ := h12 addr a ha
  obtain ⟨c, hc, hc1, hc2⟩ := h23 addr b hb
  exact ⟨c, hc, hc1.trans hb1, hc2.trans hb2⟩

theorem minedPreserved_saveTx (db : DB) (tx : TransactionEntity) :
    minedPreserved db (saveTx db tx) :=
  fun _ a ha => ⟨a, ha, rfl, rfl⟩

theorem minedPreserved_getOrCreate (db : DB) (addr : String) :
    minedPreserved db (getOrCreateAccount db addr).2 := by
  intro x a ha
  exact ⟨a, findAccount_getOrCreate_preserved addr ha, rfl, rfl⟩

theorem findAccount_saveTx (db : DB) (tx : TransactionEntity) (addr : String) :
    findAccount (saveTx db tx) addr = findAccount db addr := rfl

theorem receiverRecord_address (rcv : AccountEntity) (a : Int) (n : Option Int) :
    (receiverRecord rcv a n).address = rcv.address := rfl

theorem senderRecord_address (fr : AccountEntity) (a f : Int) (n : Option Int) :
    (senderRecord fr a f n).address = fr.address := rfl

theorem applyReceipt_fst_none_none (db2 : DB) (t : TransactionResponse)
    (s : Bool) (rc : TxReceipt) :
    (applyReceipt db2 t none none s rc).1 =
      saveTx db2 (applyReceipt db2 t none none s rc).2 := rfl

theorem applyReceipt_fst_none_some (db2 : DB) (t : TransactionResponse)
    (rcv : AccountEntity) (s : Bool) (rc : TxReceipt) :
    (applyReceipt db2 t none (some rcv) s rc).1 =
      updateAccountStats (saveTx db2 (applyReceipt db2 t none (some rcv) s rc).2)
        (receiverRecord rcv (t.value : Int) (some (rcv.balance + (t.value : Int)))) := rfl

theorem applyReceipt_fst_some_none (db2 : DB) (t : TransactionResponse)
    (fr : AccountEntity) (s : Bool) (rc : TxReceipt) :
    (applyReceipt db2 t (some fr) none s rc).1 =
      updateAccountStats (saveTx db2 (applyReceipt db2 t (some fr) none s rc).2)
        (senderRecord fr (t.value : Int) (calcFeesAmount rc)
          (some (fr.balance - (t.value : Int) - calcFeesAmount rc))) := rfl

theorem applyReceipt_fst_some_some (db2 : DB) (t : TransactionResponse)
    (fr rcv : AccountEntity) (s : Bool) (rc : TxReceipt) :
    (applyReceipt db2 t (some fr) (some rcv) s rc).1 =
      updateAccountStats
        (updateAccountStats (saveTx db2 (applyReceipt db2 t (some fr) (some rcv) s rc).2)
          (receiverRecord rcv (t.value : Int) (some (rcv.balance + (t.value : Int)))))
        (senderRecord fr (t.value : Int) (calcFeesAmount rc)
          (some (fr.balance - (t.value : Int) - calcFeesAmount rc))) := rfl

theorem minedPreserved_update {db : DB} {rec : AccountEntity}
    (hrec : ∀ b, findAccount db rec.address = some b →
      rec.totalMinedAmount = b.totalMinedAmount
      ∧ rec.totalMinedBlocks = b.totalMinedBlocks) :
    minedPreserved db (updateAccountStats db rec) := by
  intro addr a ha
  rw [findAccount_update, ha]
  simp only [Option.map_some']
  by_cases hx : a.address == rec.address
  · rw [if_pos hx]
    refine ⟨rec, rfl, ?_⟩
    have ha' : db.accounts.find? (fun x => x.address == addr) = some a := ha
    have hp := List.find?_some ha'
    have haddr : a.address = addr := eq_of_beq hp
    have hra : rec.address = addr := by rw [← eq_of_beq hx]; exact haddr
    exact hrec a (by rw [hra]; exact ha)
  · rw [if_neg hx]
    exact ⟨a, rfl, rfl, rfl⟩

theorem minedPreserved_applyReceipt (db2 : DB) (t : TransactionResponse)
    (aF aT : Option AccountEntity) (s : Bool) (rc : TxReceipt)
    (hF : ∀ a, aF = some a → findAccount db2 a.address = some a)
    (hT : ∀ a, aT = some a → findAccount db2 a.address = some a) :
    minedPreserved db2 (applyReceipt db2 t aF aT s rc).1 := by
  cases aF with
  | none =>
      cases aT with
      | none =>
          rw [applyReceipt_fst_none_none]
          exact minedPreserved_saveTx _ _
      | some rcv =>
          rw [applyReceipt_fst_none_some]
          refine minedPreserved_trans (minedPreserved_saveTx db2 _) (minedPreserved_update ?_)
          intro b hb
          rw [receiverRecord_address, findAccount_saveTx, hT rcv rfl] at hb
          cases hb
          exact ⟨rfl, rfl⟩
  | some fr =>
      cases aT with
      | none =>
          rw [applyReceipt_fst_some_none]
          refine minedPreserved_trans (minedPreserved_saveTx db2 _) (minedPreserved_update ?_)
          intro b hb
          rw [senderRecord_address, findAccount_saveTx, hF fr rfl] at hb
          cases hb
          exact ⟨rfl, rfl⟩
      | some rcv =>
          rw [applyReceipt_fst_some_some]
          refine minedPreserved_trans (minedPreserved_saveTx db2 _)
            (minedPreserved_trans (minedPreserved_update ?_) (minedPreserved_update ?_))
          · intro b hb
            rw [receiverRecord_address, findAccount_saveTx, hT rcv rfl] at hb
            cases hb
            exact ⟨rfl, rfl⟩
          · intro b hb
            rw [senderRecord_address, findAccount_update, findAccount_saveTx, hF fr rfl] at hb
            simp only [Option.map_some', receiverRecord_address] at hb
            by_cases hfrv : fr.address == rcv.address
            · rw [if_pos hfrv] at hb
              have heq : fr = rcv := by
                have h1 := hF fr rfl
                have h2 := hT rcv rfl
                rw [← eq_of_beq hfrv] at h2
                rw [h1] at h2
                exact Option.some.inj h2
              cases hb
              exact ⟨by rw [heq]; rfl, by rw [heq]; rfl⟩
            · rw [if_neg hfrv] at hb
              cases hb
              exact ⟨rfl, rfl⟩

theorem resolveAccounts_found (db : DB) (t : TransactionResponse) :
    (∀ a, (resolveAccounts db t).1 = some a →
      findAccount (resolveAccounts db t).2.2 a.address = some a)
    ∧ (∀ a, (resolveAccounts db t).2.1 = some a →
      findAccount (resolveAccounts db t).2.2 a.address = some a) := by
  unfold resolveAccounts
  cases hf : t.fromAddr.map strToLower with
  | none =>
      cases ht : t.toAddr.map strToLower with
      | none => exact ⟨by simp, by simp⟩
      | some g =>
          dsimp only
          refine ⟨by simp, ?_⟩
          intro a ha
          simp only [Option.some.injEq] at ha
          subst ha
          rw [getOrCreateAccount_address]
          exact findAccount_getOrCreate_self db g
  | some f =>
      cases ht : t.toAddr.map strToLower with
      | none =>
          dsimp only
          refine ⟨?_, by simp⟩
          intro a ha
          simp only [Option.some.injEq] at ha
          subst ha
          rw [getOrCreateAccount_address]
          exact findAccount_getOrCreate_self db f
      | some g =>
          dsimp only
          constructor <;> intro a ha <;> simp only [Option.some.injEq] at ha <;> subst ha
          · rw [getOrCreateAccount_address]
            exact findAccount_getOrCreate_preserved g (findAccount_getOrCreate_self db f)
          · rw [getOrCreateAccount_address]
            exact findAccount_getOrCreate_self _ g

theorem minedPreserved_resolveAccounts (db : DB) (t : TransactionResponse) :
    minedPreserved db (resolveAccounts db t).2.2 := by
  unfold resolveAccounts
  cases hf : t.fromAddr.map strToLower with
  | none =>
      cases ht : t.toAddr.map strToLower with
      | none => exact minedPreserved_refl db
      | some g => exact minedPreserved_getOrCreate db g
  | some f =>
      cases ht : t.toAddr.map strToLower with
      | none => exact minedPreserved_getOrCreate db f
      | some g =>
          exact minedPreserved_trans (minedPreserved_getOrCreate db f)
            (minedPreserved_getOrCreate _ g)

theorem minedPreserved_processTx (db : DB) (t : TransactionResponse) :
    minedPreserved db (processTx db t).1 := by
  by_cases hd : checkTxExists db (strToLower t.hash) = true
  · rw [processTx_dup hd]
    exact minedPreserved_refl db
  · replace hd : checkTxExists db (strToLower t.hash) = false := by simpa using hd
    have hres := resolveAccounts_found db t
    cases hw : t.wait with
    | rejectedOther =>
        rw [processTx_transport hd hw]
        exact minedPreserved_resolveAccounts db t
    | resolved rc =>
        rw [processTx_resolved hd hw]
        exact minedPreserved_trans (minedPreserved_resolveAccounts db t)
          (minedPreserved_applyReceipt _ t _ _ true rc hres.1 hres.2)
    | rejectedTxFailed rc =>
        rw [processTx_rejectedTxFailed hd hw]
        exact minedPreserved_trans (minedPreserved_resolveAccounts db t)
          (minedPreserved_applyReceipt _ t _ _ false rc hres.1 hres.2)

theorem minedPreserved_processTxList (ts : List TransactionResponse) :
    ∀ (db : DB) (fs : Int), minedPreserved db (processTxList db fs ts).1 := by
  induction ts with
  | nil => intro db fs; exact minedPreserved_refl db
  | cons t ts ih =>
      intro db fs
      have h1 := minedPreserved_processTx db t
      unfold processTxList
      rcases hp : processTx db t with ⟨db1, r⟩
      rw [hp] at h1
      rcases r with e | o
      · exact h1
      · rcases o with _ | tx
        · exact minedPreserved_trans h1 (ih db1 fs)
        · exact minedPreserved_trans h1 (ih db1 _)

/-- C6: when the transaction loop of a block fails with the rethrown
(non-"transaction failed") error, `processBlock` stops with that error
before `processBlockReward` — no BlockReward row is added, every existing
account keeps its `totalMinedAmount`/`totalMinedBlocks`, the checkpoint
field is untouched — and the orchestrator loop surfaces the same error
without advancing the checkpoint. -/
theorem c6_transport_error_aborts_block (db db1 : DB) (b : BlockWithTransactions)
    (e : ProcError) (h : processTxList db 0 b.transactions = (db1, .error e)) :
    processBlock db b = (db1, .error e)
    ∧ db1.blockRewards = db.blockRewards
    ∧ db1.lastProcessed = db.lastProcessed
    ∧ minedPreserved db db1
    ∧ (∀ (n : Nat) (rest : List BlockWithTransactions),
        pullBlocksRun db n (b :: rest) = (db1, .error e)) := by
  have hb : processBlock db b = (db1, .error e) := by
    unfold processBlock
    rw [h]
  refine ⟨hb, ?_, ?_, ?_, ?_⟩
  · have h2 := processTxList_blockRewards b.transactions db 0
    rw [h] at h2
    exact h2
  · have h2 := processTxList_lastProcessed b.transactions db 0
    rw [h] at h2
    exact h2
  · have h2 := minedPreserved_processTxList b.transactions db 0
    rw [h] at h2
    exact h2
  · intro n rest
    unfold pullBlocksRun
    rw [hb]

/-- State for the C6 witness. -/
def dbC6 : DB := ⟨[], [], [], some 0⟩

/-- Block whose only transaction rejects with a transport error. -/
def blockC6 : BlockWithTransactions :=
  { number := 1, miner := "0xM", gasUsed := 0, baseFeePerGas := none,
    transactions := [{ hash := "0xE1", blockNumber := 1, fromAddr := none, toAddr := none,
                       value := 0, wait := .rejectedOther }] }

/-- Witness for C6 at the concrete transport-failing block. -/
theorem c6_transport_error_aborts_block_witness :
    processBlock dbC6 blockC6 = (dbC6, .error .transport)
    ∧ dbC6.blockRewards = dbC6.blockRewards
    ∧ dbC6.lastProcessed = dbC6.lastProcessed
    ∧ minedPreserved dbC6 dbC6
    ∧ (∀ (n : Nat) (rest : List BlockWithTransactions),
        pullBlocksRun dbC6 n (blockC6 :: rest) = (dbC6, .error .transport)) :=
  c6_transport_error_aborts_block dbC6 dbC6 blockC6 .transport (by decide)

theorem resolveAccounts_self {db : DB} {t : TransactionResponse} {g : String}
    (hfrom : t.fromAddr.map strToLower = some g)
    (hto : t.toAddr.map strToLower = some g) :
    resolveAccounts db t =
      (some (getOrCreateAccount db g).1, some (getOrCreateAccount db g).1,
        (getOrCreateAccount db g).2) := by
  unfold resolveAccounts
  rw [hfrom, hto]
  dsimp only
  rw [getOrCreateAccount_of_found (findAccount_getOrCreate_self db g)]

theorem applyReceipt_self_find (db2 : DB) (t : TransactionResponse) (gc1 : AccountEntity)
    (s : Bool) (rc : TxReceipt) (hfind : findAccount db2 gc1.address = some gc1) :
    findAccount (applyReceipt db2 t (some gc1) (some gc1) s rc).1 gc1.address =
      some (senderRecord gc1 (t.value : Int) (calcFeesAmount rc)
        (some (gc1.balance - (t.value : Int) - calcFeesAmount rc))) := by
  rw [applyReceipt_fst_some_some, findAccount_update, findAccount_update,
    findAccount_saveTx, hfind]
  simp [receiverRecord_address, senderRecord_address]

/-- C9: for a non-duplicate transaction whose lower-cased sender and
receiver addresses coincide, both account arms are derived from the same
pre-transaction snapshot and the sender-side write lands after the
receiver-side one, so the stored account keeps only the sender-side
effects: `incomingTxCount` and `totalReceived` are unchanged, the balance
is `previousBalance − amount − feesAmount` (the self-credit is lost), and
the outgoing counters grow. -/
theorem c9_self_transfer_keeps_sender_arm (db : DB) (t : TransactionResponse)
    (g : String) (rc : TxReceipt)
    (hd : checkTxExists db (strToLower t.hash) = false)
    (hfrom : t.fromAddr.map strToLower = some g)
    (hto : t.toAddr.map strToLower = some g)
    (hw : t.wait = .resolved rc ∨ t.wait = .rejectedTxFailed rc) :
    ∃ a', findAccount (processTx db t).1 g = some a'
      ∧ a'.incomingTxCount = (getOrCreateAccount db g).1.incomingTxCount
      ∧ a'.totalReceived = (getOrCreateAccount db g).1.totalReceived
      ∧ a'.balance = (getOrCreateAccount db g).1.balance - (t.value : Int) - calcFeesAmount rc
      ∧ a'.outgoingTxCount = (getOrCreateAccount db g).1.outgoingTxCount + 1
      ∧ a'.totalSent = (getOrCreateAccount db g).1.totalSent + (t.value : Int)
      ∧ a'.totalFeesPaid = (getOrCreateAccount db g).1.totalFeesPaid + calcFeesAmount rc
      ∧ a'.totalTxCount = (getOrCreateAccount db g).1.totalTxCount + 1 := by
  have hga : (getOrCreateAccount db g).1.address = g := getOrCreateAccount_address db g
  have hfind : findAccount (getOrCreateAccount db g).2 (getOrCreateAccount db g).1.address =
      some (getOrCreateAccount db g).1 := by
    rw [hga]
    exact findAccount_getOrCreate_self db g
  rcases hw with hw | hw
  · rw [processTx_resolved hd hw, resolveAccounts_self hfrom hto]
    dsimp only
    refine ⟨senderRecord (getOrCreateAccount db g).1 (t.value : Int) (calcFeesAmount rc)
      (some ((getOrCreateAccount db g).1.balance - (t.value : Int) - calcFeesAmount rc)),
      ?_, rfl, rfl, rfl, rfl, rfl, rfl, rfl⟩
    have h2 := applyReceipt_self_find _ t _ true rc hfind
    rw [hga] at h2
    exact h2
  · rw [processTx_rejectedTxFailed hd hw, resolveAccounts_self hfrom hto]
    dsimp only
    refine ⟨senderRecord (getOrCreateAccount db g).1 (t.value : Int) (calcFeesAmount rc)
      (some ((getOrCreateAccount db g).1.balance - (t.value : Int) - calcFeesAmount rc)),
      ?_, rfl, rfl, rfl, rfl, rfl, rfl, rfl⟩
    have h2 := applyReceipt_self_find _ t _ false rc hfind
    rw [hga] at h2
    exact h2

/-- Witness for C9: a fresh account self-transfer of value 7 with fee 2. -/
theorem c9_self_transfer_keeps_sender_arm_witness :
    ∃ a', findAccount
        (processTx ⟨[], [], [], some 0⟩
          { hash := "0xS1", blockNumber := 1, fromAddr := some "0xAB", toAddr := some "0xaB",
            value := 7, wait := .resolved { gasUsed := 2, effectiveGasPrice := 1 } }).1
        "0xab" = some a'
      ∧ a'.incomingTxCount =
          (getOrCreateAccount ⟨[], [], [], some 0⟩ "0xab").1.incomingTxCount
      ∧ a'.totalReceived = (getOrCreateAccount ⟨[], [], [], some 0⟩ "0xab").1.totalReceived
      ∧ a'.balance = (getOrCreateAccount ⟨[], [], [], some 0⟩ "0xab").1.balance - (7 : Int) -
          calcFeesAmount { gasUsed := 2, effectiveGasPrice := 1 }
      ∧ a'.outgoingTxCount =
          (getOrCreateAccount ⟨[], [], [], some 0⟩ "0xab").1.outgoingTxCount + 1
      ∧ a'.totalSent = (getOrCreateAccount ⟨[], [], [], some 0⟩ "0xab").1.totalSent + (7 : Int)
      ∧ a'.totalFeesPaid = (getOrCreateAccount ⟨[], [], [], some 0⟩ "0xab").1.totalFeesPaid +
          calcFeesAmount { gasUsed := 2, effectiveGasPrice := 1 }
      ∧ a'.totalTxCount = (getOrCreateAccount ⟨[], [], [], some 0⟩ "0xab").1.totalTxCount + 1 :=
  c9_self_transfer_keeps_sender_arm ⟨[], [], [], some 0⟩
    { hash := "0xS1", blockNumber := 1, fromAddr := some "0xAB", toAddr := some "0xaB",
      value := 7, wait := .resolved { gasUsed := 2, effectiveGasPrice := 1 } }
    "0xab" { gasUsed := 2, effectiveGasPrice := 1 }
    (by decide) (by decide) (by decide) (Or.inl rfl)

theorem processBlockReward_lastProcessed (db : DB) (b : BlockWithTransactions) (fs : Int) :
    (processBlockReward db b fs).lastProcessed = db.lastProcessed := by
  unfold processBlockReward
  dsimp only
  rw [(updateAccountStats_frame _ _).2.2, (getOrCreateAccount_frame _ _).2.2]

theorem processBlock_lastProcessed (db : DB) (b : BlockWithTransactions) :
    (processBlock db b).1.lastProcessed = db.lastProcessed := by
  unfold processBlock
  have h1 := processTxList_lastProcessed b.transactions db 0
  rcases hp : processTxList db 0 b.transactions with ⟨db1, r⟩
  rw [hp] at h1
  rcases r with e | fs
  · exact h1
  · rw [processBlockReward_lastProcessed]
    exact h1

theorem pullBlocksRun_checkpoint (blocks : List BlockWithTransactions) :
    ∀ (db : DB) (c : Nat), db.lastProcessed = some (c - 1) → 1 ≤ c →
      (pullBlocksRun db c blocks).2 = .ok () →
      (pullBlocksRun db c blocks).1.lastProcessed = some (c - 1 + blocks.length) := by
  induction blocks with
  | nil =>
      intro db c h hc hok
      simpa using h
  | cons b rest ih =>
      intro db c h hc hok
      unfold pullBlocksRun at hok ⊢
      rcases hp : processBlock db b with ⟨db1, r⟩
      rw [hp] at hok
      rcases r with e | u
      · simp at hok
      · have hdb1 : db1.lastProcessed = some (c - 1) := by
          have h2 := processBlock_lastProcessed db b
          rw [hp] at h2
          rw [h2]
          exact h
        have hset : (setLastProcessedBlockNumber db1 c).lastProcessed = some ((c + 1) - 1) := by
          unfold setLastProcessedBlockNumber
          rw [hdb1]
          simp
        have h3 := ih (setLastProcessedBlockNumber db1 c) (c + 1) hset (by omega) hok
        have hn : c - 1 + (b :: rest).length = (c + 1) - 1 + rest.length := by
          simp [List.length_cons]
          omega
        rw [hn]
        exact h3

/-- C5: running the orchestrator body over blocks fetched at heights
`h0+1 .. h0+n` from a checkpoint reading `h0`, the stored checkpoint after
the first `k` successfully processed blocks is exactly `h0+k` — it grows by
one per block, skipping and regressing nothing, and equals the height of
the k-th block; the checkpoint write happens on the state `processBlock`
committed and alters nothing but the checkpoint row. -/
theorem c5_checkpoint_monotone (db : DB) (h0 : Nat) (blocks : List BlockWithTransactions)
    (hcp : db.lastProcessed = some h0)
    (hnum : ∀ i (hi : i < blocks.length), (blocks.get ⟨i, hi⟩).number = h0 + 1 + i) :
    (∀ k, k ≤ blocks.length →
      (pullBlocksRun db (h0 + 1) (blocks.take k)).2 = .ok () →
      (pullBlocksRun db (h0 + 1) (blocks.take k)).1.lastProcessed = some (h0 + k)
      ∧ (∀ bk, blocks.get? (k - 1) = some bk → 0 < k →
          (pullBlocksRun db (h0 + 1) (blocks.take k)).1.lastProcessed = some bk.number))
    ∧ (∀ (d : DB) (b : BlockWithTransactions) (n : Nat) (rest : List BlockWithTransactions),
        (processBlock d b).2 = .ok () →
        pullBlocksRun d n (b :: rest) =
          pullBlocksRun (setLastProcessedBlockNumber (processBlock d b).1 n) (n + 1) rest)
    ∧ (∀ (d : DB) (n : Nat),
        (setLastProcessedBlockNumber d n).accounts = d.accounts
        ∧ (setLastProcessedBlockNumber d n).transactions = d.transactions
        ∧ (setLastProcessedBlockNumber d n).blockRewards = d.blockRewards) := by
  refine ⟨?_, ?_, fun d n => ⟨rfl, rfl, rfl⟩⟩
  · intro k hk hok
    have hmain := pullBlocksRun_checkpoint (blocks.take k) db (h0 + 1)
      (by simpa using hcp) (by omega) hok
    have hlen : (blocks.take k).length = k := by
      rw [List.length_take]
      omega
    rw [hlen] at hmain
    have hval : (h0 + 1) - 1 + k = h0 + k := by omega
    rw [hval] at hmain
    refine ⟨hmain, ?_⟩
    intro bk hbk hkpos
    obtain ⟨hlt, hget⟩ := List.get?_eq_some.mp hbk
    have hnumk := hnum (k - 1) hlt
    rw [hget] at hnumk
    rw [hmain, hnumk]
    congr 1
    omega
  · intro d b n rest hok
    rcases hp : processBlock d b with ⟨d1, r⟩
    rw [hp] at hok
    rcases r with e | u
    · exact absurd hok (by simp)
    · rcases u
      rw [pullBlocksRun, hp]

/-- Checkpoint state for the C5 witness: last processed height 5. -/
def dbC5 : DB := ⟨[], [], [], some 5⟩

/-- Block at height 6 for the C5 witness. -/
def blockC5a : BlockWithTransactions :=
  { number := 6, miner := "0xM", gasUsed := 0, baseFeePerGas := none, transactions := [] }

/-- Block at height 7 for the C5 witness. -/
def blockC5b : BlockWithTransactions :=
  { number := 7, miner := "0xM", gasUsed := 0, baseFeePerGas := none, transactions := [] }

/-- The two consecutive blocks for the C5 witness. -/
def blocksC5 : List BlockWithTransactions := [blockC5a, blockC5b]

/-- Witness for C5 at two concrete consecutive blocks over checkpoint 5. -/
theorem c5_checkpoint_monotone_witness :
    ((pullBlocksRun dbC5 6 (blocksC5.take 2)).1.lastProcessed = some 7
      ∧ (∀ bk, blocksC5.get? 1 = some bk → 0 < 2 →
          (pullBlocksRun dbC5 6 (blocksC5.take 2)).1.lastProcessed = some bk.number))
    ∧ pullBlocksRun dbC5 6 (blockC5a :: [blockC5b]) =
        pullBlocksRun (setLastProcessedBlockNumber (processBlock dbC5 blockC5a).1 6) 7 [blockC5b]
    ∧ ((setLastProcessedBlockNumber dbC5 9).accounts = dbC5.accounts
        ∧ (setLastProcessedBlockNumber dbC5 9).transactions = dbC5.transactions
        ∧ (setLastProcessedBlockNumber dbC5 9).blockRewards = dbC5.blockRewards) :=
  ⟨(c5_checkpoint_monotone dbC5 5 blocksC5 (by decide) (by decide)).1 2 (by decide) (by decide),
   (c5_checkpoint_monotone dbC5 5 blocksC5 (by decide) (by decide)).2.1 dbC5 blockC5a 6
     [blockC5b] (by decide),
   (c5_checkpoint_monotone dbC5 5 blocksC5 (by decide) (by decide)).2.2 dbC5 9⟩
